import Mathlib

/-!
Shallow embedding of `next13-prisma-supabase-auth`: the admin page and
login page server components (`src/app/admin/page.tsx`), the OAuth
callback route (`app/auth/callback/route.ts`, listed in `src/blog.md`),
the trigger-seeding script (`src/lib/seedTriggers.ts`) and the initial
migration (`src/prisma/migrations/20231021102437_init/migration.sql`).
-/

/-- Role enum from the migration: `CREATE TYPE "Role" AS ENUM ('admin', 'user')`. -/
inductive Role where
  | admin
  | user
deriving DecidableEq, Repr

/-- String form of a `Role` value as Prisma returns it to JS code; the admin
page compares this string against the literal `"admin"`. -/
def roleString : Role → String
  | Role.admin => "admin"
  | Role.user => "user"

/-- Row of the `profile` table from the migration: `id UUID` primary key and
`role "Role" NOT NULL DEFAULT` the user role. -/
structure Profile where
  id : String
  role : Role
deriving DecidableEq, Repr

/-- Row of the `note` table from the migration: `id UUID` primary key,
`text TEXT`, `userId UUID` referencing `profile(id)` with cascade rules. -/
structure Note where
  id : String
  text : String
  userId : String
deriving DecidableEq, Repr

/-- Embedding of `prisma.profile.findUnique({ where: { id } })`: the first
(and, under the primary-key constraint, only) row whose `id` matches. -/
def findUnique (profiles : List Profile) (uid : String) : Option Profile :=
  profiles.find? (fun p => p.id = uid)

/-- Outcome of rendering one of the server components: a redirect issued via
`redirect(...)` or the JSX the component returns. -/
inductive PageResult where
  | redirectLogin
  | redirectRoot
  | renderAdmin (profile : Profile)
  | renderLogin
deriving DecidableEq, Repr

/-- Embedding of the admin page `Home` in `src/app/admin/page.tsx`. The
session is `data.session?.user`, reduced to the user id the page consults.
The second component records each primary-key id passed to
`prisma.profile.findUnique`, in order, so that query effects are visible. -/
def adminPage (session : Option String) (profiles : List Profile) :
    PageResult × List String :=
  match session with
  | none => (PageResult.redirectLogin, [])
  | some uid =>
    let profile := findUnique profiles uid
    match profile with
    | none => (PageResult.redirectRoot, [uid])
    | some p =>
      if roleString p.role ≠ "admin" then (PageResult.redirectRoot, [uid])
      else (PageResult.renderAdmin p, [uid])

/-- Embedding of `LoginPage` in `src/app/admin/page.tsx`: redirect to `/`
when a session user is present, otherwise render the login form. -/
def loginPage (session : Option String) : PageResult :=
  match session with
  | some _ => PageResult.redirectRoot
  | none => PageResult.renderLogin

/-- Request reaching the callback route `GET` handler in `src/blog.md`:
the origin of `new URL(request.url)` and `searchParams.get("code")`. -/
structure CallbackRequest where
  origin : String
  code : Option String
deriving DecidableEq, Repr

/-- Effect of the callback route `GET` handler: where
`NextResponse.redirect` points, and the code passed to
`supabase.auth.exchangeCodeForSession` when that call was made. -/
structure CallbackResponse where
  redirectTo : String
  exchangedCode : Option String
deriving DecidableEq, Repr

/-- Embedding of the callback route `GET` handler from `src/blog.md`. The
guard is the JS truthiness test `if (code)`: `searchParams.get` yields null
when the parameter is absent and the raw string otherwise, and both null and
the empty string are falsy, so the exchange runs only for a nonempty code.
The response always redirects to the request URL origin. -/
def callbackGET (req : CallbackRequest) : CallbackResponse :=
  match req.code with
  | some c =>
    if c ≠ "" then { redirectTo := req.origin, exchangedCode := some c }
    else { redirectTo := req.origin, exchangedCode := none }
  | none => { redirectTo := req.origin, exchangedCode := none }

/-- Helper: `roleString` hits `"admin"` exactly on the admin role. -/
theorem roleString_eq_admin (r : Role) : roleString r = "admin" ↔ r = Role.admin := by
  cases r <;> simp [roleString]

/-- C1: with a session user `uid` whose profile row exists, the admin page
performs exactly one `findUnique` query keyed by `uid`, redirects to `/`
exactly when the row's role string differs from `"admin"`, and renders the
admin page on the row otherwise. -/
theorem adminPage_session_queries_once_and_gates_on_role
    (uid : String) (profiles : List Profile) (p : Profile)
    (h : findUnique profiles uid = some p) :
    (adminPage (some uid) profiles).2 = [uid]
      ∧ ((adminPage (some uid) profiles).1 = PageResult.redirectRoot
          ↔ roleString p.role ≠ "admin")
      ∧ (roleString p.role = "admin"
          → (adminPage (some uid) profiles).1 = PageResult.renderAdmin p) := by
  refine ⟨?_, ?_, ?_⟩ <;> simp only [adminPage, h]
  · split <;> rfl
  · constructor
    · intro hres hadm
      rw [if_neg (by simpa using hadm)] at hres
      exact absurd hres (by simp)
    · intro hne
      rw [if_pos hne]
  · intro hadm
    rw [if_neg (by simpa using hadm)]

/-- Witness for C1 at a concrete admin profile. -/
theorem adminPage_session_queries_once_and_gates_on_role_witness :
    (adminPage (some "u1") [⟨"u1", Role.admin⟩]).2 = ["u1"]
      ∧ ((adminPage (some "u1") [⟨"u1", Role.admin⟩]).1 = PageResult.redirectRoot
          ↔ roleString Role.admin ≠ "admin")
      ∧ (roleString Role.admin = "admin"
          → (adminPage (some "u1") [⟨"u1", Role.admin⟩]).1
              = PageResult.renderAdmin ⟨"u1", Role.admin⟩) :=
  adminPage_session_queries_once_and_gates_on_role "u1" [⟨"u1", Role.admin⟩]
    ⟨"u1", Role.admin⟩ (by decide)

/-- C2: with no session user the admin page redirects to `/login` and issues
no profile query at all. -/
theorem adminPage_no_session_redirects_login (profiles : List Profile) :
    adminPage none profiles = (PageResult.redirectLogin, []) := rfl

/-- C8: with a session user whose id matches no profile row, the missing
lookup is handled and the admin page redirects to `/` instead of failing. -/
theorem adminPage_missing_profile_redirects_root
    (uid : String) (profiles : List Profile)
    (h : findUnique profiles uid = none) :
    (adminPage (some uid) profiles).1 = PageResult.redirectRoot := by
  simp only [adminPage, h]

/-- Witness for C8 on an empty profile table. -/
theorem adminPage_missing_profile_redirects_root_witness :
    (adminPage (some "u1") []).1 = PageResult.redirectRoot :=
  adminPage_missing_profile_redirects_root "u1" [] (by decide)

/-- C10: the login page redirects to `/` whenever a session user is present
and renders the login form exactly when none is. -/
theorem loginPage_redirects_iff_session (uid : String) :
    loginPage (some uid) = PageResult.redirectRoot
      ∧ loginPage none = PageResult.renderLogin :=
  ⟨rfl, rfl⟩

/-- Counterexample for C7: a request whose `code` query parameter is present
but empty carries the parameter, yet the `if (code)` truthiness guard skips
the exchange, so exchange-iff-parameter-present fails on this request. -/
theorem callback_code_param_without_exchange :
    ¬((callbackGET ⟨"http://localhost:3000", some ""⟩).exchangedCode.isSome
        ↔ (some "" : Option String).isSome) := by
  simp [callbackGET]

/-- C7 (amended): every callback `GET` responds with a redirect to the
request URL origin, and a code is exchanged for a session cookie if and
only if the request carries a nonempty `code` query parameter (the JS
truthiness the source's `if (code)` tests). -/
theorem callbackGET_redirects_origin_and_exchanges_iff_truthy
    (req : CallbackRequest) :
    (callbackGET req).redirectTo = req.origin
      ∧ ((callbackGET req).exchangedCode.isSome
          ↔ ∃ c, req.code = some c ∧ c ≠ "") := by
  cases h : req.code with
  | none => simp [callbackGET, h]
  | some c =>
    by_cases hc : c = "" <;> simp [callbackGET, h, hc]

/-- State of the two synchronized tables: the provider's `auth.users`
(reduced to its id column) and the local `public.profile`. -/
structure TrigDB where
  users : List String
  profiles : List Profile
deriving DecidableEq, Repr

/-- Row built by an insert into `profile` that supplies a value for the
given columns; the migration fills an omitted `role` with its default. -/
def mkProfileRow (id : String) (role? : Option Role) : Profile :=
  { id := id, role := role?.getD Role.user }

/-- Embedding of the trigger function `public.handle_new_user` from
`src/lib/seedTriggers.ts`: `insert into public.profile (id) values (new.id)`,
supplying only the id column. -/
def handle_new_user (newId : String) (db : TrigDB) : TrigDB :=
  { db with profiles := db.profiles ++ [mkProfileRow newId none] }

/-- Embedding of the trigger function `public.handle_user_delete` from
`src/lib/seedTriggers.ts`: `delete from auth.users where id = old.id`. -/
def handle_user_delete (old : Profile) (db : TrigDB) : TrigDB :=
  { db with users := db.users.filter (fun u => u ≠ old.id) }

/-- Insert of a row into `auth.users`: the row is added, then the installed
trigger `on_auth_user_created` (after insert on `auth.users`, for each row)
runs `handle_new_user` on the new row. -/
def insertUserOp (db : TrigDB) (uid : String) : TrigDB :=
  handle_new_user uid { db with users := db.users ++ [uid] }

/-- Delete from `public.profile` of the rows with the given id: the rows are
removed, then the installed trigger `on_profile_user_deleted` (after delete
on `public.profile`, for each row) runs `handle_user_delete` on each deleted
row. -/
def deleteProfileOp (db : TrigDB) (uid : String) : TrigDB :=
  let deleted := db.profiles.filter (fun p => p.id = uid)
  let base : TrigDB := { db with profiles := db.profiles.filter (fun p => p.id ≠ uid) }
  deleted.foldl (fun s old => handle_user_delete old s) base

/-- Direct delete of a row from `auth.users`: the seeding script installs no
trigger on deletes from `auth.users`, so only the users rows are removed and
`public.profile` is untouched. -/
def deleteUserDirect (db : TrigDB) (uid : String) : TrigDB :=
  { db with users := db.users.filter (fun u => u ≠ uid) }

/-- Database states reachable from empty through inserts into `auth.users`
(respecting its primary key) and deletes from `public.profile`, with both
triggers of `src/lib/seedTriggers.ts` installed. -/
inductive Reachable : TrigDB → Prop where
  | empty : Reachable ⟨[], []⟩
  | insertUser (db : TrigDB) (uid : String) :
      Reachable db → uid ∉ db.users → Reachable (insertUserOp db uid)
  | deleteProfile (db : TrigDB) (uid : String) :
      Reachable db → Reachable (deleteProfileOp db uid)

/-- Helper: the per-row trigger fold leaves the profile table unchanged. -/
theorem foldl_hud_profiles (l : List Profile) (base : TrigDB) :
    (l.foldl (fun s old => handle_user_delete old s) base).profiles = base.profiles := by
  induction l generalizing base with
  | nil => rfl
  | cons o t ih => simpa [handle_user_delete] using ih _

/-- Helper: the per-row trigger fold acts on the users column as an iterated
filter. -/
theorem foldl_hud_users (l : List Profile) (base : TrigDB) :
    (l.foldl (fun s old => handle_user_delete old s) base).users
      = l.foldl (fun us old => us.filter (fun u => u ≠ old.id)) base.users := by
  induction l generalizing base with
  | nil => rfl
  | cons o t ih => simpa [handle_user_delete] using ih _

/-- Helper: iterated filtering by a nonempty list of rows that all carry the
same id equals one filter by that id. -/
theorem foldl_filter_const (uid : String) (l : List Profile) (us : List String)
    (hall : ∀ o ∈ l, o.id = uid) (hne : l ≠ []) :
    l.foldl (fun us old => us.filter (fun u => u ≠ old.id)) us
      = us.filter (fun u => u ≠ uid) := by
  induction l generalizing us with
  | nil => exact absurd rfl hne
  | cons o t ih =>
    have ho : o.id = uid := hall o (List.mem_cons_self o t)
    cases t with
    | nil => simp [ho]
    | cons o2 t2 =>
      rw [List.foldl_cons, ho,
        ih (us.filter (fun u => u ≠ uid))
          (fun x hx => hall x (List.mem_cons_of_mem o hx)) (by simp),
        List.filter_filter]
      exact List.filter_congr (fun x _ => by simp)

/-- Helper: mapping ids commutes with filtering by an id predicate. -/
theorem map_id_filter (P : List Profile) (uid : String) :
    (P.filter (fun p => p.id ≠ uid)).map Profile.id
      = (P.map Profile.id).filter (fun u => u ≠ uid) := by
  induction P with
  | nil => rfl
  | cons p t ih =>
    simp only [ne_eq, decide_not] at ih ⊢
    by_cases h : p.id = uid <;> simp [h, ih]

/-- Helper invariant: on every reachable state the profile ids, in table
order, are exactly the users ids. -/
theorem reachable_ids_eq (db : TrigDB) (h : Reachable db) :
    db.profiles.map Profile.id = db.users := by
  induction h with
  | empty => rfl
  | insertUser db uid hdb hnot ih =>
    simp [insertUserOp, handle_new_user, mkProfileRow, ih]
  | deleteProfile db uid hdb ih =>
    show (deleteProfileOp db uid).profiles.map Profile.id = (deleteProfileOp db uid).users
    rw [deleteProfileOp]
    rw [foldl_hud_profiles, foldl_hud_users]
    show (db.profiles.filter (fun p => p.id ≠ uid)).map Profile.id
      = (db.profiles.filter (fun p => p.id = uid)).foldl
          (fun us old => us.filter (fun u => u ≠ old.id)) db.users
    by_cases hdel : db.profiles.filter (fun p => p.id = uid) = []
    · rw [hdel, List.foldl_nil, map_id_filter, ih]
      apply List.filter_eq_self.2
      intro u hu
      rw [← ih] at hu
      obtain ⟨p, hp, hpu⟩ := List.mem_map.1 hu
      have : ¬(p.id = uid) := by
        have := List.filter_eq_nil_iff.1 hdel p hp
        simpa using this
      simp [hpu ▸ this]
    · rw [foldl_filter_const uid _ _ (fun o ho => by simpa using (List.mem_filter.1 ho).2) hdel,
        map_id_filter, ih]

/-- C3: with both triggers installed, every database state reachable from
empty through user inserts and profile deletes has the same set of ids in
the profile table as in the provider's users table. -/
theorem trigger_sync_profile_users (db : TrigDB) (h : Reachable db) :
    ((db.profiles.map Profile.id).toFinset : Finset String) = db.users.toFinset := by
  rw [reachable_ids_eq db h]

/-- Witness for C3 on the state reached by one user insert then one profile
delete. -/
theorem trigger_sync_profile_users_witness :
    (((deleteProfileOp (insertUserOp ⟨[], []⟩ "u1") "u1").profiles.map
        Profile.id).toFinset : Finset String)
      = (deleteProfileOp (insertUserOp ⟨[], []⟩ "u1") "u1").users.toFinset :=
  trigger_sync_profile_users _
    (Reachable.deleteProfile _ "u1"
      (Reachable.insertUser ⟨[], []⟩ "u1" Reachable.empty (by simp)))

/-- Counterexample for C4: deleting a users row directly fires no installed
trigger, so the shadow profile row is not deleted — after inserting user
`u1` and then deleting the `u1` users row, the users table is empty while
the profile table still holds the `u1` row. -/
theorem user_delete_leaves_profile :
    (deleteUserDirect (insertUserOp ⟨[], []⟩ "u1") "u1").users = []
      ∧ (deleteUserDirect (insertUserOp ⟨[], []⟩ "u1") "u1").profiles
          = [⟨"u1", Role.user⟩] := by
  constructor <;> rfl

/-- C4 (amended): the trigger functions insert a shadow profile row when a
row is created in the provider's users table — on every state, a users
insert extends the profile ids by exactly the new user's id — and delete
the provider's users row when the shadow profile row is deleted. -/
theorem triggers_insert_profile_delete_user (db : TrigDB) (uid : String) :
    (insertUserOp db uid).profiles.map Profile.id
        = db.profiles.map Profile.id ++ [uid]
      ∧ (uid ∈ db.profiles.map Profile.id
          → uid ∉ (deleteProfileOp db uid).users) := by
  constructor
  · simp [insertUserOp, handle_new_user, mkProfileRow]
  · intro h
    rw [deleteProfileOp]
    rw [foldl_hud_users]
    show uid ∉ (db.profiles.filter (fun p => p.id = uid)).foldl
        (fun us old => us.filter (fun u => u ≠ old.id)) db.users
    have hdel : db.profiles.filter (fun p => p.id = uid) ≠ [] := by
      obtain ⟨p, hp, hpu⟩ := List.mem_map.1 h
      intro hnil
      have := List.filter_eq_nil_iff.1 hnil p hp
      simp [hpu] at this
    rw [foldl_filter_const uid _ _ (fun o ho => by simpa using (List.mem_filter.1 ho).2) hdel]
    intro hmem
    have := (List.mem_filter.1 hmem).2
    simp at this

/-- Witness for the amended C4: the insert direction on the empty state (a
fresh user), the delete direction on a consistent one-user state. -/
theorem triggers_insert_profile_delete_user_witness :
    (insertUserOp ⟨[], []⟩ "u1").profiles.map Profile.id
        = (⟨[], []⟩ : TrigDB).profiles.map Profile.id ++ ["u1"]
      ∧ "u1" ∉ (deleteProfileOp ⟨["u1"], [⟨"u1", Role.user⟩]⟩ "u1").users :=
  ⟨(triggers_insert_profile_delete_user ⟨[], []⟩ "u1").1,
   (triggers_insert_profile_delete_user ⟨["u1"], [⟨"u1", Role.user⟩]⟩ "u1").2 (by simp)⟩

/-- C9: a users insert appends exactly the row the `handle_new_user` trigger
builds, that row supplies only the id so its role is the migration default
`user`, and the default is not the admin role. -/
theorem handle_new_user_default_role (db : TrigDB) (uid : String) :
    (insertUserOp db uid).profiles = db.profiles ++ [mkProfileRow uid none]
      ∧ (mkProfileRow uid none).role = Role.user
      ∧ Role.user ≠ Role.admin :=
  ⟨rfl, rfl, by simp⟩

/-- State of the two ORM-mapped tables of the migration, with the
`note.userId → profile.id` foreign key. -/
structure OrmDB where
  profiles : List Profile
  notes : List Note
deriving DecidableEq, Repr

/-- Delete from `profile` of the rows with the given id under the
migration's `ON DELETE CASCADE` rule: every `note` row whose `userId`
references one of the deleted profile rows is removed as well. -/
def deleteProfileCascade (db : OrmDB) (uid : String) : OrmDB :=
  let deleted := db.profiles.filter (fun p => p.id = uid)
  { profiles := db.profiles.filter (fun p => p.id ≠ uid),
    notes := db.notes.filter (fun n => !(deleted.any (fun p => p.id = n.userId))) }

/-- C5: when a profile row with the given id exists, the cascade delete
removes exactly the note rows whose `userId` equals the deleted profile's
id, and exactly the profile rows with that id; all other rows of both
tables survive in order. -/
theorem cascade_deletes_exactly_referencing_notes (db : OrmDB) (uid : String)
    (h : uid ∈ db.profiles.map Profile.id) :
    (deleteProfileCascade db uid).notes = db.notes.filter (fun n => n.userId ≠ uid)
      ∧ (deleteProfileCascade db uid).profiles
          = db.profiles.filter (fun p => p.id ≠ uid) := by
  refine ⟨?_, rfl⟩
  show db.notes.filter _ = db.notes.filter _
  apply List.filter_congr
  intro n _
  have key : ((db.profiles.filter (fun p => p.id = uid)).any
      (fun p => p.id = n.userId) = true) ↔ n.userId = uid := by
    simp only [List.any_eq_true, List.mem_filter, decide_eq_true_eq]
    constructor
    · rintro ⟨p, ⟨hp, hpu⟩, hpn⟩
      rw [← hpn, hpu]
    · intro hn
      obtain ⟨p, hp, hpu⟩ := List.mem_map.1 h
      exact ⟨p, ⟨hp, by simpa using hpu⟩, by rw [hpu, hn]⟩
  cases hb : (db.profiles.filter (fun p => p.id = uid)).any
      (fun p => p.id = n.userId) with
  | true =>
    have := key.1 hb
    simp [this]
  | false =>
    have : ¬ n.userId = uid := fun hc => by rw [key.2 hc] at hb; cases hb
    simp [this]

/-- Witness for C5 on a two-profile, two-note table. -/
theorem cascade_deletes_exactly_referencing_notes_witness :
    (deleteProfileCascade
        ⟨[⟨"u1", Role.user⟩, ⟨"u2", Role.user⟩],
         [⟨"n1", "a", "u1"⟩, ⟨"n2", "b", "u2"⟩]⟩ "u1").notes
        = [⟨"n1", "a", "u1"⟩, ⟨"n2", "b", "u2"⟩].filter (fun n => n.userId ≠ "u1")
      ∧ (deleteProfileCascade
        ⟨[⟨"u1", Role.user⟩, ⟨"u2", Role.user⟩],
         [⟨"n1", "a", "u1"⟩, ⟨"n2", "b", "u2"⟩]⟩ "u1").profiles
        = [⟨"u1", Role.user⟩, ⟨"u2", Role.user⟩].filter (fun p => p.id ≠ "u1") :=
  cascade_deletes_exactly_referencing_notes
    ⟨[⟨"u1", Role.user⟩, ⟨"u2", Role.user⟩],
     [⟨"n1", "a", "u1"⟩, ⟨"n2", "b", "u2"⟩]⟩ "u1" (by simp)

/-- Catalog of named definitions in one database namespace (functions or
triggers), listed in creation order as name-body pairs. -/
abbrev Catalog := List (String × String)

/-- Embedding of a `create or replace` statement: replace the body stored
under the name when a definition with that name exists, otherwise append
the new definition. -/
def createOrReplace (k body : String) (cat : Catalog) : Catalog :=
  if cat.any (fun e => e.1 = k)
  then cat.map (fun e => if e.1 = k then (k, body) else e)
  else cat ++ [(k, body)]

/-- Helper: after a `create or replace` the name is present. -/
theorem createOrReplace_key_present (k v : String) (m : Catalog) :
    (createOrReplace k v m).any (fun e => e.1 = k) = true := by
  unfold createOrReplace
  split
  · rename_i hc
    simp only [List.any_eq_true, decide_eq_true_eq] at hc ⊢
    obtain ⟨e, he, hek⟩ := hc
    exact ⟨(k, v), List.mem_map.2 ⟨e, he, by simp [hek]⟩, rfl⟩
  · simp

/-- Helper: a `create or replace` never removes a name already present. -/
theorem createOrReplace_preserves_key (k v k2 : String) (m : Catalog)
    (h : m.any (fun e => e.1 = k2) = true) :
    (createOrReplace k v m).any (fun e => e.1 = k2) = true := by
  unfold createOrReplace
  split
  · simp only [List.any_eq_true, decide_eq_true_eq] at h ⊢
    obtain ⟨e, he, hek⟩ := h
    by_cases hk : e.1 = k
    · exact ⟨(k, v), List.mem_map.2 ⟨e, he, by simp [hk]⟩, by rw [← hek, hk]⟩
    · exact ⟨e, List.mem_map.2 ⟨e, he, by simp [hk]⟩, hek⟩
  · simp only [List.any_eq_true, decide_eq_true_eq] at h ⊢
    obtain ⟨e, he, hek⟩ := h
    exact ⟨e, List.mem_append_left _ he, hek⟩

/-- Helper: after `create or replace`, the entry under the written name is
exactly the written definition. -/
theorem createOrReplace_pins_key (k v : String) (m : Catalog) :
    ∀ e ∈ createOrReplace k v m, e.1 = k → e = (k, v) := by
  unfold createOrReplace
  split
  · intro e he hek
    obtain ⟨x, hx, hfx⟩ := List.mem_map.1 he
    by_cases hxk : x.1 = k
    · rw [← hfx, if_pos hxk]
    · rw [← hfx, if_neg hxk] at hek
      rw [← hfx, if_neg hxk]
      exact absurd hek hxk
  · rename_i hc
    intro e he hek
    rcases List.mem_append.1 he with hm | hkv
    · exfalso
      apply hc
      simp only [List.any_eq_true, decide_eq_true_eq]
      exact ⟨e, hm, hek⟩
    · simpa using hkv

/-- Helper: a `create or replace` under one name keeps intact the pinning of
a different name. -/
theorem createOrReplace_keeps_other (k v k2 v2 : String) (hne : k ≠ k2)
    (m : Catalog) (h : ∀ e ∈ m, e.1 = k2 → e = (k2, v2)) :
    ∀ e ∈ createOrReplace k v m, e.1 = k2 → e = (k2, v2) := by
  unfold createOrReplace
  split
  · intro e he hek
    obtain ⟨x, hx, hfx⟩ := List.mem_map.1 he
    by_cases hxk : x.1 = k
    · rw [← hfx, if_pos hxk] at hek
      exact absurd hek hne
    · rw [← hfx, if_neg hxk] at hek ⊢
      exact h x hx hek
  · intro e he hek
    rcases List.mem_append.1 he with hm | hkv
    · exact h e hm hek
    · rw [List.mem_singleton.1 hkv] at hek
      exact absurd hek hne

/-- Helper: mapping a function that fixes every member of a list is the
identity on it. -/
theorem map_self_of (l : Catalog) (f : String × String → String × String)
    (h : ∀ e ∈ l, f e = e) : l.map f = l := by
  induction l with
  | nil => rfl
  | cons x t ih =>
    rw [List.map_cons, h x (List.mem_cons_self x t),
      ih (fun e he => h e (List.mem_cons_of_mem x he))]

/-- Helper: a `create or replace` whose name is present with exactly its
definition is the identity. -/
theorem createOrReplace_id (k v : String) (m : Catalog)
    (hpres : m.any (fun e => e.1 = k) = true)
    (hpin : ∀ e ∈ m, e.1 = k → e = (k, v)) :
    createOrReplace k v m = m := by
  unfold createOrReplace
  rw [if_pos hpres]
  apply map_self_of
  intro e he
  by_cases hek : e.1 = k
  · rw [if_pos hek, hpin e he hek]
  · rw [if_neg hek]

/-- Helper: running the same pair of `create or replace` statements, under
two distinct names, a second time changes nothing. -/
theorem createOrReplace_twice (k1 v1 k2 v2 : String) (hne : k1 ≠ k2)
    (m : Catalog) :
    createOrReplace k2 v2 (createOrReplace k1 v1
        (createOrReplace k2 v2 (createOrReplace k1 v1 m)))
      = createOrReplace k2 v2 (createOrReplace k1 v1 m) := by
  have hk1 : (createOrReplace k2 v2 (createOrReplace k1 v1 m)).any
      (fun e => e.1 = k1) = true :=
    createOrReplace_preserves_key k2 v2 k1 _ (createOrReplace_key_present k1 v1 m)
  have hpin1 : ∀ e ∈ createOrReplace k2 v2 (createOrReplace k1 v1 m),
      e.1 = k1 → e = (k1, v1) :=
    createOrReplace_keeps_other k2 v2 k1 v1 hne.symm _ (createOrReplace_pins_key k1 v1 m)
  rw [createOrReplace_id k1 v1 _ hk1 hpin1]
  exact createOrReplace_id k2 v2 _ (createOrReplace_key_present k2 v2 _)
    (createOrReplace_pins_key k2 v2 _)

/-- Catalog state of the database objects the seeding script manages:
functions and triggers live in separate namespaces. -/
structure DbCatalog where
  functions : Catalog
  triggers : Catalog
deriving DecidableEq, Repr

/-- Body of `public.handle_new_user` in `src/lib/seedTriggers.ts`. -/
def handleNewUserBody : String :=
  "begin insert into public.profile (id) values (new.id); return new; end"

/-- Body of `public.handle_user_delete` in `src/lib/seedTriggers.ts`. -/
def handleUserDeleteBody : String :=
  "begin delete from auth.users where id = old.id; return old; end"

/-- Definition of the trigger `on_auth_user_created` in
`src/lib/seedTriggers.ts`. -/
def onAuthUserCreatedBody : String :=
  "after insert on auth.users for each row execute procedure public.handle_new_user()"

/-- Definition of the trigger `on_profile_user_deleted` in
`src/lib/seedTriggers.ts`. -/
def onProfileUserDeletedBody : String :=
  "after delete on public.profile for each row execute procedure public.handle_user_delete()"

/-- Embedding of `main` in `src/lib/seedTriggers.ts`: the four
`create or replace` statements, executed in script order against the
catalog. -/
def runSeedTriggers (c : DbCatalog) : DbCatalog :=
  let s1 : DbCatalog :=
    { c with functions := createOrReplace "handle_new_user" handleNewUserBody c.functions }
  let s2 : DbCatalog :=
    { s1 with triggers := createOrReplace "on_auth_user_created" onAuthUserCreatedBody s1.triggers }
  let s3 : DbCatalog :=
    { s2 with functions := createOrReplace "handle_user_delete" handleUserDeleteBody s2.functions }
  { s3 with triggers := createOrReplace "on_profile_user_deleted" onProfileUserDeletedBody s3.triggers }

/-- C6: running the seeding script a second time against a catalog that
already ran it leaves the installed functions and triggers unchanged. -/
theorem seed_script_idempotent (c : DbCatalog) :
    runSeedTriggers (runSeedTriggers c) = runSeedTriggers c := by
  cases c with
  | mk fs ts =>
    show DbCatalog.mk
        (createOrReplace "handle_user_delete" handleUserDeleteBody
          (createOrReplace "handle_new_user" handleNewUserBody
            (createOrReplace "handle_user_delete" handleUserDeleteBody
              (createOrReplace "handle_new_user" handleNewUserBody fs))))
        (createOrReplace "on_profile_user_deleted" onProfileUserDeletedBody
          (createOrReplace "on_auth_user_created" onAuthUserCreatedBody
            (createOrReplace "on_profile_user_deleted" onProfileUserDeletedBody
              (createOrReplace "on_auth_user_created" onAuthUserCreatedBody ts))))
      = DbCatalog.mk
        (createOrReplace "handle_user_delete" handleUserDeleteBody
          (createOrReplace "handle_new_user" handleNewUserBody fs))
        (createOrReplace "on_profile_user_deleted" onProfileUserDeletedBody
          (createOrReplace "on_auth_user_created" onAuthUserCreatedBody ts))
    congr 1
    · exact createOrReplace_twice _ _ _ _ (by decide) fs
    · exact createOrReplace_twice _ _ _ _ (by decide) ts
